import Mathlib

/-!
Verification of meetily_capacities_sync.py against its specification.

This file gives a shallow embedding of the script.  JSON values produced by
json.load are modelled by the inductive type Json; Python dictionaries are
association lists (json.load yields dictionaries, whose keys are unique).
Python runtime exceptions relevant to the embedded code are modelled by
PyErr, and computations that may raise return Except PyErr.  External
collaborators (the Whisper transcriber, the ollama LLM, the Capacities HTTP
endpoint, the filesystem directory listing) are modelled by oracle values
recording their outcomes; everything else is translated directly from the
source.
-/

/-- JSON value, as produced by Python json.load.  JSON numbers are modelled
by integers; no code path examined here inspects a numeric value. -/
inductive Json where
  | null
  | bool (b : Bool)
  | num (n : Int)
  | str (s : String)
  | arr (xs : List Json)
  | obj (kvs : List (String × Json))

/-- Python exceptions that the embedded code can raise or catch. -/
inductive PyErr where
  | jsonDecodeError
  | keyError
  | typeError
  | attributeError
deriving DecidableEq

/-- Result of a reader call: either a normal return (None or a transcript
string), or an exception escaping the reader. -/
inductive ReadResult where
  | ok (result : Option String)
  | raised (e : PyErr)
deriving DecidableEq

/-- Python equality of a JSON value against a string: true exactly when the
value is that string. -/
def jsonEqStr (j : Json) (k : String) : Bool :=
  match j with
  | Json.str s => s == k
  | _ => false

/-- Characters stripped from both ends, the meaning of Python strip with no
argument.  (Python also strips vertical tab and form feed; no input
considered here contains those.) -/
def trimChars (cs : List Char) : List Char :=
  ((cs.dropWhile Char.isWhitespace).reverse.dropWhile Char.isWhitespace).reverse

/-- Python strip on a string. -/
def pyStripStr (s : String) : String :=
  String.mk (trimChars s.toList)

/-- Python substring test, the meaning of the operator in on two strings. -/
def strContains (s sub : String) : Bool :=
  (List.range (s.toList.length + 1)).any
    (fun i => ((s.toList.drop i).take sub.toList.length) == sub.toList)

/-- Python membership test key in data: key lookup on a dictionary, element
membership on a list, substring test on a string, and a TypeError on
non-iterable values such as numbers, booleans and null. -/
def pyContains (data : Json) (key : String) : Except PyErr Bool :=
  match data with
  | Json.obj kvs => Except.ok (kvs.any (fun kv => kv.1 == key))
  | Json.arr xs => Except.ok (xs.any (fun x => jsonEqStr x key))
  | Json.str s => Except.ok (strContains s key)
  | _ => Except.error PyErr.typeError

/-- Python data.get(key, dflt): defined on dictionaries, an AttributeError
on every other value. -/
def dictGet (j : Json) (key : String) (dflt : Json) : Except PyErr Json :=
  match j with
  | Json.obj kvs =>
    match kvs.find? (fun kv => kv.1 == key) with
    | some kv => Except.ok kv.2
    | none => Except.ok dflt
  | _ => Except.error PyErr.attributeError

/-- Python subscript data[key] with a string key: dictionary lookup raising
KeyError when absent, a TypeError on lists, strings and other values. -/
def pySubscript (data : Json) (key : String) : Except PyErr Json :=
  match data with
  | Json.obj kvs =>
    match kvs.find? (fun kv => kv.1 == key) with
    | some kv => Except.ok kv.2
    | none => Except.error PyErr.keyError
  | _ => Except.error PyErr.typeError

/-- Python value.strip(): whitespace trim on strings, an AttributeError on
any other value.  (Python also strips vertical tab and form feed; no input
considered here contains those.) -/
def pyStrip (j : Json) : Except PyErr String :=
  match j with
  | Json.str s => Except.ok (pyStripStr s)
  | _ => Except.error PyErr.attributeError

/-- Python truthiness of a JSON value. -/
def pyTruthy (j : Json) : Bool :=
  match j with
  | Json.null => false
  | Json.bool b => b
  | Json.num n => !(n == 0)
  | Json.str s => !(s == "")
  | Json.arr xs => !xs.isEmpty
  | Json.obj kvs => !kvs.isEmpty

/-- Python iteration over a JSON value: a list yields its elements, a string
its one-character substrings, a dictionary its keys; other values raise
TypeError. -/
def pyIter (j : Json) : Except PyErr (List Json) :=
  match j with
  | Json.arr xs => Except.ok xs
  | Json.str s => Except.ok (s.toList.map (fun c => Json.str (String.mk [c])))
  | Json.obj kvs => Except.ok (kvs.map (fun kv => Json.str kv.1))
  | _ => Except.error PyErr.typeError

/-- One step of the generator in the segments branch of
_read_json_transcript: segment.get "text" with default "" followed by
strip. -/
def segTextE (seg : Json) : Except PyErr String :=
  match dictGet seg "text" (Json.str "") with
  | Except.ok t => pyStrip t
  | Except.error e => Except.error e

/-- The whole generator of stripped segment texts; the first exception
raised inside the generator propagates. -/
def segTextsE : List Json → Except PyErr (List String)
  | [] => Except.ok []
  | seg :: rest =>
    match segTextE seg with
    | Except.error e => Except.error e
    | Except.ok t =>
      match segTextsE rest with
      | Except.error e => Except.error e
      | Except.ok ts => Except.ok (t :: ts)

/-- Python " ".join on a list of strings. -/
def joinSpace : List String → String
  | [] => ""
  | [t] => t
  | t :: u :: rest => t ++ " " ++ joinSpace (u :: rest)

/-- The loop over the generic keys text, transcript and content at the end
of _read_json_transcript: the first key present whose value is a string is
returned; the subscript is evaluated only after the membership test
succeeds. -/
def genericLookup (data : Json) : List String → Except PyErr (Option String)
  | [] => Except.ok none
  | k :: ks =>
    match pyContains data k with
    | Except.error e => Except.error e
    | Except.ok false => genericLookup data ks
    | Except.ok true =>
      match pySubscript data k with
      | Except.error e => Except.error e
      | Except.ok (Json.str s) => Except.ok (some s)
      | Except.ok _ => genericLookup data ks

/-- Body of the try block of _read_json_transcript.  The argument models
the file contents: none stands for a file whose contents are not valid JSON
(json.load raises JSONDecodeError), some data for contents parsing to
data. -/
def readJsonTranscriptE (contents : Option Json) : Except PyErr (Option String) :=
  match contents with
  | none => Except.error PyErr.jsonDecodeError
  | some data =>
    match pyContains data "segments" with
    | Except.error e => Except.error e
    | Except.ok true =>
      match dictGet data "segments" (Json.arr []) with
      | Except.error e => Except.error e
      | Except.ok segments =>
        if pyTruthy segments then
          match pyIter segments with
          | Except.error e => Except.error e
          | Except.ok segs =>
            match segTextsE segs with
            | Except.error e => Except.error e
            | Except.ok ts => Except.ok (some (joinSpace ts))
        else genericLookup data ["text", "transcript", "content"]
    | Except.ok false => genericLookup data ["text", "transcript", "content"]

/-- MeetingNotesProcessor._read_json_transcript: the try body wrapped in the
except clause, which catches exactly JSONDecodeError and KeyError and turns
them into None; every other exception escapes the reader. -/
def readJsonTranscript (contents : Option Json) : ReadResult :=
  match readJsonTranscriptE contents with
  | Except.ok r => ReadResult.ok r
  | Except.error PyErr.jsonDecodeError => ReadResult.ok none
  | Except.error PyErr.keyError => ReadResult.ok none
  | Except.error e => ReadResult.raised e

/-- A Meetily folder on disk, as far as the script inspects it.  For each of
the two JSON files: none means the file is absent, some none a present file
whose contents are not valid JSON, some (some j) a present file parsing to
j. -/
structure Folder where
  transcripts : Option (Option Json)
  metadata : Option (Option Json)

/-- MeetingNotesProcessor._read_meetily_folder: None when transcripts.json
does not exist, else _read_json_transcript on it. -/
def readMeetilyFolder (f : Folder) : ReadResult :=
  match f.transcripts with
  | none => ReadResult.ok none
  | some contents => readJsonTranscript contents

/-- Outcomes of the two external calls made by process_transcript after
reading: the ollama chat completion (none means the call raised, some notes
the returned message content) and the HTTP POST of send_to_capacities (none
means requests.post raised a RequestException, some code a response with
that status code). -/
structure ExtCall where
  aiRes : Option String
  sendStatus : Option Nat
deriving DecidableEq

/-- MeetingNotesProcessor.send_to_capacities: true exactly when the POST
returned and its status code is 200; a non-200 response or a network
exception yields false. -/
def send_to_capacities (sendStatus : Option Nat) : Bool :=
  match sendStatus with
  | some code => code == 200
  | none => false

/-- MeetingNotesProcessor.process_transcript: read the transcript, bail out
on an empty or missing transcript, run the LLM, send the result; the
enclosing try catches every exception and returns False.  The first
argument is the result of read_transcript_file (for a Meetily folder,
readMeetilyFolder); the context and content type arguments of the original
only shape the prompt and are absorbed into the ollama oracle. -/
def process_transcript (r : ReadResult) (ext : ExtCall) : Bool :=
  match r with
  | ReadResult.raised _ => false
  | ReadResult.ok none => false
  | ReadResult.ok (some t) =>
    if pyStripStr t == "" then false
    else
      match ext.aiRes with
      | none => false
      | some _notes => send_to_capacities ext.sendStatus

/-- save_sync_state: json.dump of list(processed_files).  The iteration
order of a Python set is unspecified; the model fixes one enumeration of
the Finset. -/
def save_sync_state (processed : Finset String) : List String :=
  processed.sort (fun a b => a ≤ b)

/-- load_sync_state: set(json.load(f)) when the sync state file exists and
parses, the empty set otherwise (the bare except).  The argument models the
file: none when absent or unreadable, some l when it holds the JSON array
l. -/
def load_sync_state (file : Option (List String)) : Finset String :=
  match file with
  | none => ∅
  | some l => l.toFinset

/-- The shared tail of every processing site in main: when
process_transcript returned True the path is added to the processed set and
save_sync_state is called on the new set; otherwise nothing changes.  The
second component is the JSON array written to the sync state file, none
when no write happens. -/
def afterProcess (processed : Finset String) (path : String) (ok : Bool) :
    Finset String × Option (List String) :=
  if ok then
    let p2 := insert path processed
    (p2, some (save_sync_state p2))
  else (processed, none)

/-- Python pathlib name of a path: its last slash-separated component. -/
def pathName (p : String) : String :=
  String.mk ((p.toList.reverse.takeWhile (fun c => !(c == '/'))).reverse)

/-- ASCII lowercasing of a string, the effect of Python lower on the
extension strings compared here. -/
def lowerStr (s : String) : String :=
  String.mk (s.toList.map Char.toLower)

/-- Index of the last occurrence of a character in a character list. -/
def lastIdxOf (cs : List Char) (c : Char) : Option Nat :=
  ((List.range cs.length).filter (fun i => cs.getD i ' ' == c)).getLast?

/-- Python pathlib suffix of a path: the final dot suffix of its name,
empty when the name has no dot, starts with its only dot, or ends in the
dot. -/
def pathSuffix (p : String) : String :=
  let cs := (pathName p).toList
  match lastIdxOf cs '.' with
  | some i => if 0 < i && i + 1 < cs.length then String.mk (cs.drop i) else ""
  | none => ""

/-- The audio and video extension allow-list of the script. -/
def AUDIO_VIDEO_EXTENSIONS : List String :=
  [".mp3", ".mp4", ".wav", ".m4a", ".webm", ".mov", ".avi", ".mkv", ".flac", ".ogg"]

/-- One entry of the iteration over TRANSCRIPT_DIR in main: its path as a
string (str item), whether it is a directory, the folder contents, and the
oracle for the external calls process_transcript would make on it. -/
structure RecEntry where
  path : String
  isDir : Bool
  folder : Folder
  ext : ExtCall

/-- One entry of the iteration over IMPORT_DIR in main: its path, the
result its read_transcript_file call would produce (for these entries the
reading is a Whisper transcription, an external call), and the oracle for
the remaining external calls. -/
structure ImpEntry where
  path : String
  readRes : ReadResult
  ext : ExtCall

/-- The completed-status gate of the recordings scan: metadata.json parsed
and metadata.get "status" equals the string completed.  A file that fails
to parse, a non-dictionary document (whose get raises AttributeError), a
missing key and a non-string status are all swallowed by the bare except
and skipped. -/
def metadataCompleted (f : Folder) : Bool :=
  match f.metadata with
  | some (some (Json.obj kvs)) =>
    match kvs.find? (fun kv => kv.1 == "status") with
    | some kv => jsonEqStr kv.2 "completed"
    | none => false
  | _ => false

/-- The guard under which the recordings scan of main calls
process_transcript on an entry: a directory holding both transcripts.json
and metadata.json, with completed status, whose path string is not in the
processed set. -/
def recEligible (processed : Finset String) (e : RecEntry) : Bool :=
  e.isDir && e.folder.transcripts.isSome && e.folder.metadata.isSome
    && metadataCompleted e.folder && !(decide (e.path ∈ processed))

/-- The guard under which the import scan of main calls process_transcript
on an entry: an allow-listed lowercased suffix and a path string not in the
processed set. -/
def impEligible (processed : Finset String) (e : ImpEntry) : Bool :=
  AUDIO_VIDEO_EXTENSIONS.contains (lowerStr (pathSuffix e.path))
    && !(decide (e.path ∈ processed))

/-- State threaded through the default scan of main: the in-memory
processed set, the paths process_transcript has been called on, and the
JSON arrays successively written to the sync state file. -/
structure ScanState where
  processed : Finset String
  called : List String
  saves : List (List String)
deriving DecidableEq

/-- One iteration of the recordings scan loop of main. -/
def recStep (st : ScanState) (e : RecEntry) : ScanState :=
  if recEligible st.processed e then
    let r := afterProcess st.processed e.path
      (process_transcript (readMeetilyFolder e.folder) e.ext)
    { processed := r.1, called := st.called ++ [e.path],
      saves := st.saves ++ r.2.toList }
  else st

/-- One iteration of the import scan loop of main. -/
def impStep (st : ScanState) (e : ImpEntry) : ScanState :=
  if impEligible st.processed e then
    let r := afterProcess st.processed e.path
      (process_transcript e.readRes e.ext)
    { processed := r.1, called := st.called ++ [e.path],
      saves := st.saves ++ r.2.toList }
  else st

/-- The recordings scan loop over the listed entries. -/
def scanRec (st : ScanState) (recs : List RecEntry) : ScanState :=
  List.foldl recStep st recs

/-- The import scan loop over the listed entries. -/
def scanImp (st : ScanState) (imps : List ImpEntry) : ScanState :=
  List.foldl impStep st imps

/-- The default mode of main: scan the recordings directory, then the
folder of imports, starting from the loaded sync state. -/
def scanAll (processed : Finset String) (recs : List RecEntry)
    (imps : List ImpEntry) : ScanState :=
  scanImp (scanRec ⟨processed, [], []⟩ recs) imps

/-- The identifier recorded by single file mode: the command line argument
verbatim (processed_files.add(file_path) with file_path = args.file). -/
def singleFileRecordedId (fileArg : String) : String := fileArg

/-- The identifier recorded by the scans: the stringified directory entry
(processed_files.add(str(item))). -/
def scanRecordedId (itemPath : String) : String := itemPath

/-- POSIX resolution of a possibly relative path spelling against a working
directory; a model of the operating system, used to relate two spellings of
the same filesystem object.  The script itself never resolves paths. -/
def resolvePath (cwd p : String) : String :=
  match p.toList with
  | c :: _ => if c == '/' then p else cwd ++ "/" ++ p
  | [] => cwd ++ "/" ++ p

/-- How a run of main ends, apart from the configuration checks at
startup. -/
inductive RunOutcome where
  | done (processed : Finset String) (saved : Option (List String))
  | exited (code : Nat)
deriving DecidableEq

/-- Single file mode of main: process the given path; on success record the
argument string and save, otherwise sys.exit(1). -/
def mainSingle (processed : Finset String) (path : String) (r : ReadResult)
    (ext : ExtCall) : RunOutcome :=
  if process_transcript r ext then
    let p2 := insert (singleFileRecordedId path) processed
    RunOutcome.done p2 (some (save_sync_state p2))
  else RunOutcome.exited 1

/-- One argparse argument of the command line interface. -/
structure ArgSpec where
  name : String
  positional : Bool
  choices : Option (List String)
  defaultVal : Option String
deriving DecidableEq

/-- The full argparse surface of main: the optional positional file, the
context flag and the content type flag, in declaration order. -/
def cliArgSpecs : List ArgSpec :=
  [⟨"file", true, none, none⟩,
   ⟨"--context", false, none, some ""⟩,
   ⟨"--type", false, some ["meeting", "summary"], some "meeting"⟩]

/-- Modes a run of main can be in.  The watch constructor exists only so
that the claimed watch mode is statable; mainMode, translated from the
dispatch of main on args.file, never produces it. -/
inductive Mode where
  | singleFile
  | scanOnce
  | watch
deriving DecidableEq

/-- The dispatch of main: a present positional file argument selects single
file mode, otherwise the one-time scan over both directories runs. -/
def mainMode (fileArg : Option String) : Mode :=
  match fileArg with
  | some _ => Mode.singleFile
  | none => Mode.scanOnce

/-- Whether process_transcript reaches its send_to_capacities call: the
transcript was read and non-blank and the LLM call returned. -/
def sendAttempted (r : ReadResult) (ext : ExtCall) : Bool :=
  match r with
  | ReadResult.ok (some t) => if pyStripStr t == "" then false else ext.aiRes.isSome
  | _ => false

/-- Whether a segment entry supports the get and strip calls the segments
branch performs on it, so that no exception is raised for it. -/
def validSegment (seg : Json) : Bool :=
  match segTextE seg with
  | Except.ok _ => true
  | Except.error _ => false

/-- The stripped text the segments branch extracts from a valid segment. -/
def segStrippedText (seg : Json) : String :=
  match segTextE seg with
  | Except.ok t => t
  | Except.error _ => ""

/-- The four keys _read_json_transcript looks for. -/
def expectedKeys : List String := ["segments", "text", "transcript", "content"]

/-- A non-200 status, or a network exception, makes send_to_capacities
return false. -/
lemma send_false_of_ne {st : Option Nat} (h : st ≠ some 200) :
    send_to_capacities st = false := by
  cases st with
  | none => rfl
  | some code =>
    have hc : code ≠ 200 := fun hcc => h (by rw [hcc])
    simp [send_to_capacities, hc]

/-- send_to_capacities returns true only on status 200. -/
lemma sendStatus_of_send_true {st : Option Nat} (h : send_to_capacities st = true) :
    st = some 200 := by
  cases st with
  | none => exact absurd h (by simp [send_to_capacities])
  | some code =>
    simp only [send_to_capacities, beq_iff_eq] at h
    rw [h]

/-- Whatever the transcript and LLM outcome, a send that does not come back
with status 200 makes process_transcript return false. -/
lemma process_false_of_sendStatus_ne {r : ReadResult} {ext : ExtCall}
    (h : ext.sendStatus ≠ some 200) : process_transcript r ext = false := by
  cases r with
  | raised e => rfl
  | ok o =>
    cases o with
    | none => rfl
    | some t =>
      simp only [process_transcript]
      by_cases ht : pyStripStr t == ""
      · simp [ht]
      · simp only [ht, if_false, Bool.false_eq_true]
        cases ext.aiRes with
        | none => rfl
        | some notes => exact send_false_of_ne h

/-- process_transcript returns true only when the POST came back with
status 200. -/
lemma sendStatus_of_process_true {r : ReadResult} {ext : ExtCall}
    (h : process_transcript r ext = true) : ext.sendStatus = some 200 := by
  cases r with
  | raised e => exact absurd h (by simp [process_transcript])
  | ok o =>
    cases o with
    | none => exact absurd h (by simp [process_transcript])
    | some t =>
      simp only [process_transcript] at h
      by_cases ht : pyStripStr t == ""
      · simp [ht] at h
      · simp only [ht, if_false, Bool.false_eq_true] at h
        cases hai : ext.aiRes with
        | none => rw [hai] at h; exact absurd h (by simp)
        | some notes => rw [hai] at h; exact sendStatus_of_send_true h

/-- Membership in the first component of afterProcess is preserved. -/
lemma mem_afterProcess_fst {p path : String} {processed : Finset String}
    (ok : Bool) (h : p ∈ processed) : p ∈ (afterProcess processed path ok).1 := by
  cases ok with
  | false => exact h
  | true => simp only [afterProcess]; exact Finset.mem_insert_of_mem h

/-- An entry eligible for the recordings scan has a path outside the
processed set. -/
lemma recEligible_not_mem {processed : Finset String} {e : RecEntry}
    (h : recEligible processed e = true) : e.path ∉ processed := by
  simp only [recEligible, Bool.and_eq_true, Bool.not_eq_true', decide_eq_false_iff_not] at h
  exact h.2

/-- An entry eligible for the import scan has a path outside the processed
set. -/
lemma impEligible_not_mem {processed : Finset String} {e : ImpEntry}
    (h : impEligible processed e = true) : e.path ∉ processed := by
  simp only [impEligible, Bool.and_eq_true, Bool.not_eq_true', decide_eq_false_iff_not] at h
  exact h.2

/-- The invariant carried through the scan for one previously processed
path: it stays in the processed set and process_transcript is never called
on it. -/
def ScanInv (p : String) (st : ScanState) : Prop :=
  p ∈ st.processed ∧ p ∉ st.called

lemma scanInv_recStep {p : String} (st : ScanState) (e : RecEntry)
    (h : ScanInv p st) : ScanInv p (recStep st e) := by
  obtain ⟨hmem, hcal⟩ := h
  unfold recStep
  split
  case isTrue hel =>
    refine ⟨mem_afterProcess_fst _ hmem, ?_⟩
    intro hc
    rcases List.mem_append.mp hc with hc2 | hc2
    · exact hcal hc2
    · have hpe : p = e.path := List.mem_singleton.mp hc2
      exact recEligible_not_mem hel (hpe ▸ hmem)
  case isFalse _ => exact ⟨hmem, hcal⟩

lemma scanInv_impStep {p : String} (st : ScanState) (e : ImpEntry)
    (h : ScanInv p st) : ScanInv p (impStep st e) := by
  obtain ⟨hmem, hcal⟩ := h
  unfold impStep
  split
  case isTrue hel =>
    refine ⟨mem_afterProcess_fst _ hmem, ?_⟩
    intro hc
    rcases List.mem_append.mp hc with hc2 | hc2
    · exact hcal hc2
    · have hpe : p = e.path := List.mem_singleton.mp hc2
      exact impEligible_not_mem hel (hpe ▸ hmem)
  case isFalse _ => exact ⟨hmem, hcal⟩

lemma scanInv_scanRec {p : String} :
    ∀ (recs : List RecEntry) (st : ScanState),
      ScanInv p st → ScanInv p (scanRec st recs)
  | [], _, h => h
  | e :: es, st, h => scanInv_scanRec es (recStep st e) (scanInv_recStep st e h)

lemma scanInv_scanImp {p : String} :
    ∀ (imps : List ImpEntry) (st : ScanState),
      ScanInv p st → ScanInv p (scanImp st imps)
  | [], _, h => h
  | e :: es, st, h => scanInv_scanImp es (impStep st e) (scanInv_impStep st e h)

/-- On an object none of whose keys is the given one, the Python membership
test comes back false. -/
lemma pyContains_obj_false {kvs : List (String × Json)} {k : String}
    (h : ∀ kv ∈ kvs, kv.1 ≠ k) : pyContains (Json.obj kvs) k = Except.ok false := by
  simp only [pyContains, Except.ok.injEq]
  rw [List.any_eq_false]
  intro kv hkv
  simpa using h kv hkv

/-- The generic key loop returns None when every key fails its membership
test. -/
lemma genericLookup_none (data : Json) :
    ∀ ks : List String, (∀ k ∈ ks, pyContains data k = Except.ok false) →
      genericLookup data ks = Except.ok none
  | [], _ => rfl
  | k :: ks, h => by
    unfold genericLookup
    rw [h k (List.mem_cons_self k ks)]
    exact genericLookup_none data ks (fun k2 hk2 => h k2 (List.mem_cons_of_mem k hk2))

/-- On a list of segments all of which support get and strip, the
generator runs through and yields the stripped texts. -/
lemma segTextsE_all_valid :
    ∀ {segs : List Json}, (∀ seg ∈ segs, validSegment seg = true) →
      segTextsE segs = Except.ok (segs.map segStrippedText)
  | [], _ => rfl
  | seg :: rest, h => by
    have h1 : validSegment seg = true := h seg (List.mem_cons_self seg rest)
    unfold segTextsE
    cases hse : segTextE seg with
    | error e => rw [validSegment, hse] at h1; exact absurd h1 (by simp)
    | ok t =>
      rw [segTextsE_all_valid (fun s hs => h s (List.mem_cons_of_mem seg hs))]
      have hst : segStrippedText seg = t := by rw [segStrippedText, hse]
      simp [hst]

/-- A string append with a one-character middle is never empty. -/
lemma append_space_ne_empty (a b : String) : a ++ " " ++ b ≠ "" := by
  intro h
  have hd : (a ++ " " ++ b).data = "".data := by rw [h]
  rw [String.data_append, String.data_append] at hd
  simp at hd

/-- " ".join of a list one of whose elements is non-empty is non-empty. -/
lemma joinSpace_ne_empty :
    ∀ {xs : List String} {x : String}, x ∈ xs → x ≠ "" → joinSpace xs ≠ ""
  | [], x, hx, _ => absurd hx (List.not_mem_nil x)
  | [a], x, hx, hne => by
    have : x = a := List.mem_singleton.mp hx
    rw [joinSpace]
    exact this ▸ hne
  | a :: b :: rest, _, _, _ => by
    rw [joinSpace]
    exact append_space_ne_empty a (joinSpace (b :: rest))

/-- C1: when the POST to the Capacities API returns a status other than 200
or raises a network exception, process_transcript returns false, main
leaves the processed set unchanged and writes nothing to the sync state
file, and conversely a path is only ever marked processed when the response
status is exactly 200. -/
theorem c1_non200_not_processed
    (r r2 : ReadResult) (ext ext2 : ExtCall)
    (processed : Finset String) (path : String) (st : ScanState) (e : RecEntry)
    (hne : ext.sendStatus ≠ some 200) (hee : e.ext.sendStatus ≠ some 200)
    (h2 : process_transcript r2 ext2 = true) :
    process_transcript r ext = false
    ∧ afterProcess processed path (process_transcript r ext) = (processed, none)
    ∧ (recStep st e).processed = st.processed
    ∧ (recStep st e).saves = st.saves
    ∧ ext2.sendStatus = some 200 := by
  have hp : process_transcript r ext = false := process_false_of_sendStatus_ne hne
  have hpe : process_transcript (readMeetilyFolder e.folder) e.ext = false :=
    process_false_of_sendStatus_ne hee
  refine ⟨hp, by rw [hp]; rfl, ?_, ?_, sendStatus_of_process_true h2⟩
  · by_cases hel : recEligible st.processed e = true
    · simp [recStep, hel, hpe, afterProcess]
    · simp [recStep, hel]
  · by_cases hel : recEligible st.processed e = true
    · simp [recStep, hel, hpe, afterProcess]
    · simp [recStep, hel]

theorem c1_non200_not_processed_witness :
    (ExtCall.mk (some "n") (some 500)).sendStatus ≠ some 200
    ∧ (RecEntry.mk "q" true
        (Folder.mk
          (some (some (Json.obj [("segments", Json.arr [Json.obj [("text", Json.str "hi")]])])))
          (some (some (Json.obj [("status", Json.str "completed")]))))
        (ExtCall.mk (some "n") (some 500))).ext.sendStatus ≠ some 200
    ∧ process_transcript (ReadResult.ok (some "hi")) (ExtCall.mk (some "n") (some 200)) = true
    ∧ (process_transcript (ReadResult.ok (some "hi")) (ExtCall.mk (some "n") (some 500)) = false
       ∧ afterProcess ∅ "p"
           (process_transcript (ReadResult.ok (some "hi")) (ExtCall.mk (some "n") (some 500)))
           = (∅, none)
       ∧ (recStep (ScanState.mk ∅ [] [])
            (RecEntry.mk "q" true
              (Folder.mk
                (some (some (Json.obj [("segments", Json.arr [Json.obj [("text", Json.str "hi")]])])))
                (some (some (Json.obj [("status", Json.str "completed")]))))
              (ExtCall.mk (some "n") (some 500)))).processed = (∅ : Finset String)
       ∧ (recStep (ScanState.mk ∅ [] [])
            (RecEntry.mk "q" true
              (Folder.mk
                (some (some (Json.obj [("segments", Json.arr [Json.obj [("text", Json.str "hi")]])])))
                (some (some (Json.obj [("status", Json.str "completed")]))))
              (ExtCall.mk (some "n") (some 500)))).saves = ([] : List (List String))
       ∧ (ExtCall.mk (some "n") (some 200)).sendStatus = some 200) :=
  ⟨by decide, by decide, by decide,
   c1_non200_not_processed (ReadResult.ok (some "hi")) (ReadResult.ok (some "hi"))
     (ExtCall.mk (some "n") (some 500)) (ExtCall.mk (some "n") (some 200)) ∅ "p"
     (ScanState.mk ∅ [] [])
     (RecEntry.mk "q" true
       (Folder.mk
         (some (some (Json.obj [("segments", Json.arr [Json.obj [("text", Json.str "hi")]])])))
         (some (some (Json.obj [("status", Json.str "completed")]))))
       (ExtCall.mk (some "n") (some 500)))
     (by decide) (by decide) (by decide)⟩

/-- C2: a path already present in the loaded sync state is never a path the
default scan over both directories calls process_transcript on. -/
theorem c2_rerun_skips_processed (recs : List RecEntry) (imps : List ImpEntry)
    (processed0 : Finset String) (p : String) (hp : p ∈ processed0) :
    p ∉ (scanAll processed0 recs imps).called := by
  have h : ScanInv p (scanAll processed0 recs imps) :=
    scanInv_scanImp imps (scanRec (ScanState.mk processed0 [] []) recs)
      (scanInv_scanRec recs (ScanState.mk processed0 [] []) ⟨hp, List.not_mem_nil p⟩)
  exact h.2

theorem c2_rerun_skips_processed_witness :
    "a" ∈ ({"a"} : Finset String)
    ∧ "a" ∉ (scanAll {"a"}
        [RecEntry.mk "a" true
          (Folder.mk
            (some (some (Json.obj [("segments", Json.arr [Json.obj [("text", Json.str "hi")]])])))
            (some (some (Json.obj [("status", Json.str "completed")]))))
          (ExtCall.mk (some "n") (some 200))]
        [ImpEntry.mk "a" (ReadResult.ok (some "t")) (ExtCall.mk (some "n") (some 200))]).called :=
  ⟨by decide,
   c2_rerun_skips_processed
     [RecEntry.mk "a" true
       (Folder.mk
         (some (some (Json.obj [("segments", Json.arr [Json.obj [("text", Json.str "hi")]])])))
         (some (some (Json.obj [("status", Json.str "completed")]))))
       (ExtCall.mk (some "n") (some 200))]
     [ImpEntry.mk "a" (ReadResult.ok (some "t")) (ExtCall.mk (some "n") (some 200))]
     {"a"} "a" (by decide)⟩

/-- C3 counterexample: an attempted send that comes back with status 500
leaves the processed set unchanged and writes nothing, refuting the claim
that any attempted send marks the file processed and persists it. -/
theorem c3_counterexample_attempted_send_not_saved :
    sendAttempted (ReadResult.ok (some "hello")) (ExtCall.mk (some "notes") (some 500)) = true
    ∧ afterProcess ∅ "p"
        (process_transcript (ReadResult.ok (some "hello")) (ExtCall.mk (some "notes") (some 500)))
        = (∅, none) :=
  ⟨by decide, by decide⟩

/-- C3 amended: the sync state is updated and written to disk exactly after
each successful send; a merely attempted send changes and persists
nothing. -/
theorem c3_saved_iff_success (processed : Finset String) (path : String)
    (r : ReadResult) (ext : ExtCall) :
    afterProcess processed path (process_transcript r ext)
      = (insert path processed, some (save_sync_state (insert path processed)))
    ↔ process_transcript r ext = true := by
  cases h : process_transcript r ext with
  | true => simp [afterProcess]
  | false => simp [afterProcess]

/-- C4: a directory whose metadata.json holds status completed and whose
transcripts.json holds the two segments hello and world yields exactly the
transcript hello world, the stripped texts joined by single spaces. -/
theorem c4_hello_world :
    readMeetilyFolder
      (Folder.mk
        (some (some (Json.obj
          [("segments", Json.arr
            [Json.obj [("text", Json.str "hello")], Json.obj [("text", Json.str "world")]])])))
        (some (some (Json.obj [("status", Json.str "completed")]))))
      = ReadResult.ok (some "hello world")
    ∧ metadataCompleted
      (Folder.mk
        (some (some (Json.obj
          [("segments", Json.arr
            [Json.obj [("text", Json.str "hello")], Json.obj [("text", Json.str "world")]])])))
        (some (some (Json.obj [("status", Json.str "completed")])))) = true :=
  ⟨by decide, by decide⟩

/-- C5 counterexample: a completed folder whose transcripts.json parses and
has the Meetily segments shape, but whose only segment text is blank,
yields the empty transcript string, refuting the claim that every completed
folder with valid files yields a non-empty transcript. -/
theorem c5_counterexample_blank_segment_text :
    metadataCompleted
      (Folder.mk
        (some (some (Json.obj [("segments", Json.arr [Json.obj [("text", Json.str "")]])])))
        (some (some (Json.obj [("status", Json.str "completed")])))) = true
    ∧ readMeetilyFolder
      (Folder.mk
        (some (some (Json.obj [("segments", Json.arr [Json.obj [("text", Json.str "")]])])))
        (some (some (Json.obj [("status", Json.str "completed")])))) = ReadResult.ok (some "") :=
  ⟨by decide, by decide⟩

/-- C5 amended: a completed Meetily folder whose transcripts.json parses to
an object with a non-empty segments array, all of whose segments bear a
string or absent text field and at least one a non-blank one, produces a
non-empty transcript string from the reader; and a folder whose metadata
status is not completed is skipped by the scan unchanged. -/
theorem c5_completed_folder_nonempty_incomplete_skipped
    (kvs : List (String × Json)) (segs : List Json) (meta : Option (Option Json))
    (st : ScanState) (e : RecEntry)
    (hfind : kvs.find? (fun kv => kv.1 == "segments") = some ("segments", Json.arr segs))
    (hne : segs ≠ [])
    (hvalid : segs.all validSegment = true)
    (hsome : segs.any (fun s => !(segStrippedText s == "")) = true)
    (hmeta : metadataCompleted e.folder = false) :
    readMeetilyFolder (Folder.mk (some (some (Json.obj kvs))) meta)
      = ReadResult.ok (some (joinSpace (segs.map segStrippedText)))
    ∧ joinSpace (segs.map segStrippedText) ≠ ""
    ∧ recStep st e = st := by
  have hmem : ("segments", Json.arr segs) ∈ kvs := List.mem_of_find?_eq_some hfind
  have hpred : (fun (kv : String × Json) => kv.1 == "segments")
      ("segments", Json.arr segs) = true := rfl
  have hany : kvs.any (fun kv => kv.1 == "segments") = true :=
    List.any_eq_true.mpr ⟨("segments", Json.arr segs), hmem, hpred⟩
  have hc : pyContains (Json.obj kvs) "segments" = Except.ok true := by
    rw [show pyContains (Json.obj kvs) "segments"
        = Except.ok (kvs.any (fun kv => kv.1 == "segments")) from rfl, hany]
  have hg : dictGet (Json.obj kvs) "segments" (Json.arr []) = Except.ok (Json.arr segs) := by
    simp only [dictGet, hfind]
  have htr : pyTruthy (Json.arr segs) = true := by
    cases segs with
    | nil => exact absurd rfl hne
    | cons a as => rfl
  have hseg : segTextsE segs = Except.ok (segs.map segStrippedText) :=
    segTextsE_all_valid (List.all_eq_true.mp hvalid)
  have hread : readJsonTranscriptE (some (Json.obj kvs))
      = Except.ok (some (joinSpace (segs.map segStrippedText))) := by
    simp only [readJsonTranscriptE, hc, hg, htr, if_true, pyIter, hseg]
  refine ⟨?_, ?_, ?_⟩
  · simp only [readMeetilyFolder, readJsonTranscript, hread]
  · obtain ⟨s, hs, hpred⟩ := List.any_eq_true.mp hsome
    have hsne : segStrippedText s ≠ "" := by simpa using hpred
    exact joinSpace_ne_empty (List.mem_map_of_mem segStrippedText hs) hsne
  · have hel : recEligible st.processed e = false := by
      simp [recEligible, hmeta]
    simp [recStep, hel]

theorem c5_completed_folder_nonempty_incomplete_skipped_witness :
    ([("segments", Json.arr [Json.obj [("text", Json.str "hi")]])].find?
        (fun kv => kv.1 == "segments")
      = some ("segments", Json.arr [Json.obj [("text", Json.str "hi")]]))
    ∧ ([Json.obj [("text", Json.str "hi")]] : List Json) ≠ []
    ∧ ([Json.obj [("text", Json.str "hi")]].all validSegment = true)
    ∧ ([Json.obj [("text", Json.str "hi")]].any
        (fun s => !(segStrippedText s == "")) = true)
    ∧ metadataCompleted
        (Folder.mk (some (some (Json.obj []))) (some (some (Json.obj [])))) = false
    ∧ (readMeetilyFolder
        (Folder.mk
          (some (some (Json.obj [("segments", Json.arr [Json.obj [("text", Json.str "hi")]])])))
          (some none))
        = ReadResult.ok
            (some (joinSpace ([Json.obj [("text", Json.str "hi")]].map segStrippedText)))
      ∧ joinSpace ([Json.obj [("text", Json.str "hi")]].map segStrippedText) ≠ ""
      ∧ recStep (ScanState.mk ∅ [] [])
          (RecEntry.mk "p" true
            (Folder.mk (some (some (Json.obj []))) (some (some (Json.obj []))))
            (ExtCall.mk none none))
          = ScanState.mk ∅ [] []) :=
  ⟨rfl, List.cons_ne_nil _ _, rfl, rfl, rfl,
   c5_completed_folder_nonempty_incomplete_skipped
     [("segments", Json.arr [Json.obj [("text", Json.str "hi")]])]
     [Json.obj [("text", Json.str "hi")]]
     (some none)
     (ScanState.mk ∅ [] [])
     (RecEntry.mk "p" true
       (Folder.mk (some (some (Json.obj []))) (some (some (Json.obj []))))
       (ExtCall.mk none none))
     rfl (List.cons_ne_nil _ _) rfl rfl rfl⟩

/-- C6 counterexample: valid JSON whose top level is not an object can make
the reader raise a TypeError past its boundary, here a bare number, where
the membership test is not defined, and a list containing the string text,
where the subscript is not defined. -/
theorem c6_counterexample_nonobject_raises :
    readJsonTranscript (some (Json.num 42)) = ReadResult.raised PyErr.typeError
    ∧ readJsonTranscript (some (Json.arr [Json.str "text"]))
        = ReadResult.raised PyErr.typeError :=
  ⟨by decide, by decide⟩

/-- C6 amended: malformed JSON, and valid JSON whose top level is an object
bearing none of the keys segments, text, transcript and content, make the
reader return None without raising; a non-object top level may instead
raise TypeError. -/
theorem c6_malformed_or_keyless_object_none (kvs : List (String × Json))
    (hk : kvs.all (fun kv => !(expectedKeys.contains kv.1)) = true) :
    readJsonTranscript none = ReadResult.ok none
    ∧ readJsonTranscript (some (Json.obj kvs)) = ReadResult.ok none := by
  refine ⟨rfl, ?_⟩
  have hk2 : ∀ kv ∈ kvs, kv.1 ∉ expectedKeys := by
    intro kv hkv
    simpa using List.all_eq_true.mp hk kv hkv
  have hne : ∀ k ∈ expectedKeys, ∀ kv ∈ kvs, kv.1 ≠ k := by
    intro k hkmem kv hkv heq
    exact hk2 kv hkv (heq ▸ hkmem)
  have hcont : ∀ k ∈ expectedKeys, pyContains (Json.obj kvs) k = Except.ok false :=
    fun k hkmem => pyContains_obj_false (hne k hkmem)
  have hcseg : pyContains (Json.obj kvs) "segments" = Except.ok false :=
    hcont "segments" (by decide)
  have hgen : genericLookup (Json.obj kvs) ["text", "transcript", "content"]
      = Except.ok none := by
    apply genericLookup_none
    intro k hkk
    exact hcont k (List.mem_cons_of_mem "segments" hkk)
  simp only [readJsonTranscript, readJsonTranscriptE, hcseg, hgen]

theorem c6_malformed_or_keyless_object_none_witness :
    ([("foo", Json.num 1)].all (fun kv => !(expectedKeys.contains kv.1)) = true)
    ∧ (readJsonTranscript none = ReadResult.ok none
       ∧ readJsonTranscript (some (Json.obj [("foo", Json.num 1)])) = ReadResult.ok none) :=
  ⟨rfl, c6_malformed_or_keyless_object_none [("foo", Json.num 1)] rfl⟩

/-- C7 counterexample: in single file mode a file whose transcript is
unreadable makes the program exit with status 1, refuting the claim that a
per-file failure is never fatal to the run. -/
theorem c7_counterexample_single_file_exit :
    process_transcript (ReadResult.ok none) (ExtCall.mk none none) = false
    ∧ mainSingle ∅ "f" (ReadResult.ok none) (ExtCall.mk none none)
        = RunOutcome.exited 1 :=
  ⟨by decide, by decide⟩

/-- C7 amended: in the default scan a per-file failure is caught and the
scan continues over the remaining entries with the state otherwise
unchanged, but in single file mode a failed file ends the run with exit
status 1. -/
theorem c7_scan_skip_and_continue (e : RecEntry) (es : List RecEntry) (st : ScanState)
    (processed : Finset String) (path : String) (r : ReadResult) (ext : ExtCall)
    (hfail : process_transcript (readMeetilyFolder e.folder) e.ext = false)
    (hfail2 : process_transcript r ext = false) :
    scanRec st (e :: es)
      = scanRec (if recEligible st.processed e
                 then ScanState.mk st.processed (st.called ++ [e.path]) st.saves
                 else st) es
    ∧ mainSingle processed path r ext = RunOutcome.exited 1 := by
  constructor
  · have hstep : recStep st e
        = (if recEligible st.processed e
           then ScanState.mk st.processed (st.called ++ [e.path]) st.saves
           else st) := by
      by_cases hel : recEligible st.processed e = true
      · simp [recStep, hel, hfail, afterProcess]
      · simp [recStep, hel]
    show scanRec (recStep st e) es = _
    rw [hstep]
  · simp [mainSingle, hfail2]

theorem c7_scan_skip_and_continue_witness :
    process_transcript
      (readMeetilyFolder
        (Folder.mk
          (some (some (Json.obj [("segments", Json.arr [Json.obj [("text", Json.str "hi")]])])))
          (some (some (Json.obj [("status", Json.str "completed")])))))
      (ExtCall.mk (some "n") (some 500)) = false
    ∧ process_transcript (ReadResult.ok none) (ExtCall.mk none none) = false
    ∧ (scanRec (ScanState.mk ∅ [] [])
        [RecEntry.mk "q" true
          (Folder.mk
            (some (some (Json.obj [("segments", Json.arr [Json.obj [("text", Json.str "hi")]])])))
            (some (some (Json.obj [("status", Json.str "completed")]))))
          (ExtCall.mk (some "n") (some 500))]
        = scanRec (if recEligible (∅ : Finset String)
              (RecEntry.mk "q" true
                (Folder.mk
                  (some (some (Json.obj
                    [("segments", Json.arr [Json.obj [("text", Json.str "hi")]])])))
                  (some (some (Json.obj [("status", Json.str "completed")]))))
                (ExtCall.mk (some "n") (some 500)))
            then ScanState.mk ∅ ([] ++ ["q"]) []
            else ScanState.mk ∅ [] []) []
      ∧ mainSingle ∅ "f" (ReadResult.ok none) (ExtCall.mk none none)
          = RunOutcome.exited 1) :=
  ⟨by decide, by decide,
   c7_scan_skip_and_continue
     (RecEntry.mk "q" true
       (Folder.mk
         (some (some (Json.obj [("segments", Json.arr [Json.obj [("text", Json.str "hi")]])])))
         (some (some (Json.obj [("status", Json.str "completed")]))))
       (ExtCall.mk (some "n") (some 500)))
     [] (ScanState.mk ∅ [] []) ∅ "f" (ReadResult.ok none) (ExtCall.mk none none)
     (by decide) (by decide)⟩

/-- C8 counterexample: the full argparse surface is the positional file,
the context flag and the type flag; no flag selects a watch mode, and both
possible dispatches of main are the single file run and the one-time scan,
refuting the claimed scan-versus-watch flag and watch invocation. -/
theorem c8_counterexample_no_watch_flag :
    cliArgSpecs.map ArgSpec.name = ["file", "--context", "--type"]
    ∧ (cliArgSpecs.map ArgSpec.name).contains "--watch" = false
    ∧ mainMode none = Mode.scanOnce
    ∧ mainMode (some "x") = Mode.singleFile := by
  decide

/-- C8 amended: the command line interface accepts an optional positional
file path, a context string flag and a content type flag with choices
meeting and summary; there is no watch flag, and no invocation of main runs
a watch mode: every run is either the single file run or the one-time
scan. -/
theorem c8_cli_surface_no_watch :
    cliArgSpecs.map ArgSpec.name = ["file", "--context", "--type"]
    ∧ (∃ a ∈ cliArgSpecs, a.name = "file" ∧ a.positional = true)
    ∧ (∃ a ∈ cliArgSpecs, a.name = "--context" ∧ a.positional = false)
    ∧ (∃ a ∈ cliArgSpecs, a.name = "--type" ∧ a.choices = some ["meeting", "summary"])
    ∧ (∀ f : Option String, mainMode f ≠ Mode.watch) := by
  refine ⟨by decide, by decide, by decide, by decide, ?_⟩
  intro f
  cases f <;> simp [mainMode]

/-- C9: saving a set of processed path strings and loading it back returns
the same set: persisting as a JSON array and reloading as a set is a round
trip. -/
theorem c9_sync_state_roundtrip (s : Finset String) :
    load_sync_state (some (save_sync_state s)) = s := by
  simp only [load_sync_state, save_sync_state]
  exact Finset.sort_toFinset _ s

/-- C10: deduplication is by exact string equality of the recorded
identifier.  Single file mode records the argument verbatim and the scan
records the stringified entry; for the same filesystem object, reached once
through a relative spelling and once through the absolute one, the two
recorded strings differ, and a scan whose sync state holds only the
relative spelling processes the object again. -/
theorem c10_dedup_exact_string :
    singleFileRecordedId "Movies/rec/a" = "Movies/rec/a"
    ∧ scanRecordedId "/home/u/Movies/rec/a" = "/home/u/Movies/rec/a"
    ∧ resolvePath "/home/u" "Movies/rec/a" = resolvePath "/home/u" "/home/u/Movies/rec/a"
    ∧ "Movies/rec/a" ≠ "/home/u/Movies/rec/a"
    ∧ (scanRec (ScanState.mk {"Movies/rec/a"} [] [])
        [RecEntry.mk "/home/u/Movies/rec/a" true
          (Folder.mk
            (some (some (Json.obj [("segments", Json.arr [Json.obj [("text", Json.str "hi")]])])))
            (some (some (Json.obj [("status", Json.str "completed")]))))
          (ExtCall.mk (some "n") (some 200))]).called = ["/home/u/Movies/rec/a"]
    ∧ mainSingle ∅ "Movies/rec/a" (ReadResult.ok (some "hi")) (ExtCall.mk (some "n") (some 200))
        = RunOutcome.done (insert "Movies/rec/a" ∅)
            (some (save_sync_state (insert "Movies/rec/a" ∅))) := by
  refine ⟨rfl, rfl, by decide, by decide, by decide, ?_⟩
  have h : process_transcript (ReadResult.ok (some "hi"))
      (ExtCall.mk (some "n") (some 200)) = true := by decide
  simp [mainSingle, singleFileRecordedId, h]
